import Mathlib

/-!
# Verification of the CornerBrand stamping core

A shallow embedding, in Lean 4, of the CornerBrand repository's core logic
(`src-tauri/src/image_engine.rs`, `pdf_engine.rs`, `path_policy.rs`,
`batch.rs`), together with theorems settling the frozen claims about it.

Modelling conventions:

* Rust `f32`/`f64` values are modelled by `FloatVal`: an exact rational for
  every finite float, plus the three non-finite values (`nan`, `inf`, `ninf`).
  Rounding of real float arithmetic is idealized away (exact rational
  arithmetic), but the order-theoretic operations the code relies on
  (`clamp`, `min`, `max`, comparisons) are exact on floats, so this is
  faithful for the clamping and placement logic under scrutiny.  Where a
  computation is only ever reached with finite inputs the embedding uses ℚ
  directly.
* Rust `u32` quantities are modelled by `ℕ`; `saturating_sub` is ℕ
  subtraction, `saturating_add` is made explicit, and `as u32` casts from a
  float use the saturating `castU32` below.
* Filesystem state is modelled as an oracle `String → Bool` ("does this file
  name exist"), and I/O outcomes (decoding an image, inserting a PDF object,
  saving a file) as `Except String _`-valued oracles supplied through
  environment records.  Directory resolution (`resolve_output_dir`,
  `Path::parent`) is absorbed into those oracles; the name-allocation logic
  itself is embedded in full.
* PDF documents are modelled by a partial map from object ids to a syntax
  tree of PDF objects, mirroring exactly what `resolve_page_size`,
  `get_object_dictionary` and `parse_media_box` inspect.
-/

/-- Model of a Rust `f32`/`f64` value: an exact rational for finite floats,
plus the non-finite values.  (`f64::from` widening of an `f32` is the
identity in this model; the widening is exact on real floats as well.) -/
inductive FloatVal where
  | fin (q : ℚ)
  | nan
  | inf
  | ninf
deriving DecidableEq

/-- `f32::is_finite`. -/
def FloatVal.isFinite : FloatVal → Bool
  | .fin _ => true
  | _ => false

/-- Rust `f32::clamp(lo, hi)` (with `lo ≤ hi`): finite values are clamped,
`inf` goes to `hi`, `-inf` to `lo`, and NaN propagates (both comparisons in
the Rust implementation are false on NaN). -/
def FloatVal.clamp (lo hi : ℚ) : FloatVal → FloatVal
  | .fin q => .fin (min (max q lo) hi)
  | .nan => .nan
  | .inf => .fin hi
  | .ninf => .fin lo

/-- Membership of a float value in a closed interval; NaN and infinities are
never in the interval. -/
def FloatVal.memIcc (lo hi : ℚ) : FloatVal → Prop
  | .fin q => lo ≤ q ∧ q ≤ hi
  | _ => False

instance (lo hi : ℚ) (v : FloatVal) : Decidable (v.memIcc lo hi) := by
  cases v <;> simp [FloatVal.memIcc] <;> infer_instance

/-- Decidable equality for `Except` results (used to evaluate the embedded
functions at concrete inputs). -/
instance {e a : Type} [DecidableEq e] [DecidableEq a] : DecidableEq (Except e a) := fun x y =>
  match x, y with
  | .error u, .error v =>
    if h : u = v then isTrue (by rw [h]) else isFalse (by intro hc; cases hc; exact h rfl)
  | .ok u, .ok v =>
    if h : u = v then isTrue (by rw [h]) else isFalse (by intro hc; cases hc; exact h rfl)
  | .error _, .ok _ => isFalse (by intro hc; cases hc)
  | .ok _, .error _ => isFalse (by intro hc; cases hc)

/-- Rust `f32::round` / `f64::round`: round half away from zero. -/
def rustRound (q : ℚ) : ℤ :=
  if q < 0 then -⌊-q + 1/2⌋ else ⌊q + 1/2⌋

/-- Rust's saturating float-to-`u32` `as` cast: negative values go to `0`,
values above `u32::MAX` go to `u32::MAX`. -/
def castU32 (z : ℤ) : ℕ := min z.toNat (2 ^ 32 - 1)

/-- The four corner labels (`CornerPosition` in both engines). -/
inductive CornerPosition where
  | topLeft
  | topRight
  | bottomLeft
  | bottomRight
deriving DecidableEq

/-- The raw settings payload `StampSettingsInput` (position label, size
preset label, optional explicit size percentage, margin percentage). -/
structure StampSettingsInput where
  position : String
  size_preset : String
  size_percent : Option FloatVal
  margin_percent : FloatVal
deriving DecidableEq

/-- The resolved settings.  The source has two structurally identical
`StampSettings` structs (an `f32` one in `image_engine.rs` and an `f64` one
in `pdf_engine.rs`); in this exact-rational model they coincide, so one type
serves both.  `size_ratio` is ℚ because both resolvers only ever produce it
from finite values; `margin_percent` keeps the full float domain because
`clamp` can propagate NaN. -/
structure StampSettings where
  position : CornerPosition
  size_ratio : ℚ
  margin_percent : FloatVal
deriving DecidableEq

/-- The position-label match shared verbatim by both `TryFrom`
implementations. -/
def parsePosition (s : String) : Except String CornerPosition :=
  if s = "좌상단" then .ok .topLeft
  else if s = "우상단" then .ok .topRight
  else if s = "좌하단" then .ok .bottomLeft
  else if s = "우하단" then .ok .bottomRight
  else .error "유효하지 않은 위치 값입니다."

/-- The size-preset match (small/medium/large), duplicated verbatim in both
`TryFrom` implementations. -/
def presetRatio (s : String) : Except String ℚ :=
  if s = "작음" then .ok 0.08
  else if s = "보통" then .ok 0.12
  else if s = "큼" then .ok 0.16
  else .error "유효하지 않은 크기 프리셋입니다."

/-- `image_engine.rs`: `impl TryFrom<StampSettingsInput> for StampSettings`.
A present *finite* explicit percentage is clamped to `[1, 300]` and divided
by 100; a present non-finite one falls through to the preset (the
`is_finite` test in the source corresponds to the `.fin` pattern here).
The margin is clamped to `[0, 20]`. -/
def imageSettingsTryFrom (value : StampSettingsInput) : Except String StampSettings :=
  match parsePosition value.position with
  | .error e => .error e
  | .ok position =>
    match (match value.size_percent with
      | some (.fin q) => Except.ok (min (max q 1) 300 / 100)
      | some _ => presetRatio value.size_preset
      | none => presetRatio value.size_preset) with
    | .error e => .error e
    | .ok size_ratio =>
      .ok { position := position, size_ratio := size_ratio,
            margin_percent := value.margin_percent.clamp 0 20 }

/-- `pdf_engine.rs`: `impl TryFrom<StampSettingsInput> for StampSettings`.
Identical to the image resolver except that the explicit percentage is
clamped to `[1, 50]` (the `f64::from` widenings are the identity here). -/
def pdfSettingsTryFrom (value : StampSettingsInput) : Except String StampSettings :=
  match parsePosition value.position with
  | .error e => .error e
  | .ok position =>
    match (match value.size_percent with
      | some (.fin q) => Except.ok (min (max q 1) 50 / 100)
      | some _ => presetRatio value.size_preset
      | none => presetRatio value.size_preset) with
    | .error e => .error e
    | .ok size_ratio =>
      .ok { position := position, size_ratio := size_ratio,
            margin_percent := value.margin_percent.clamp 0 20 }

/-- The placement-geometry portion of `image_engine.rs::stamp_single_image`
(lines 150–177): given the decoded canvas size, the logo's intrinsic size
and the resolved settings (with a finite margin), compute
`(x, y, target_width, target_height)`.  ℕ subtraction is Rust's
`saturating_sub`; `margin_px.min(max_x)` is `min`, and `.max(0)`/`.max(1)`
are kept as in the source. -/
def stampSingleImageRect (width height logoW logoH : ℕ) (position : CornerPosition)
    (size_ratio margin_percent : ℚ) : ℕ × ℕ × ℕ × ℕ :=
  let short_side : ℚ := ((min width height : ℕ) : ℚ)
  let margin_px : ℕ := max (castU32 (rustRound (short_side * margin_percent / 100))) 0
  let logo_max : ℕ := max (max logoW logoH) 1
  let target_max : ℕ := max (castU32 (rustRound (short_side * size_ratio))) 1
  let scale : ℚ := (target_max : ℚ) / (logo_max : ℚ)
  let target_width : ℕ := max (castU32 (rustRound ((logoW : ℚ) * scale))) 1
  let target_height : ℕ := max (castU32 (rustRound ((logoH : ℚ) * scale))) 1
  let max_x := width - target_width
  let max_y := height - target_height
  match position with
  | .topLeft => (min margin_px max_x, min margin_px max_y, target_width, target_height)
  | .topRight => (max_x - margin_px, min margin_px max_y, target_width, target_height)
  | .bottomLeft => (min margin_px max_x, max_y - margin_px, target_width, target_height)
  | .bottomRight => (max_x - margin_px, max_y - margin_px, target_width, target_height)

/-- `pdf_engine.rs::compute_logo_rect`.  The decoding of the logo stream is
replaced by its outcome (`logoDecode`, the dimensions or a decode error);
the settings are passed as their fields, with a finite margin.  All the
arithmetic, the degenerate-page and zero-logo checks, and the clamping are
as in the source. -/
def computeLogoRect (page_width page_height : ℚ) (position : CornerPosition)
    (size_ratio margin_percent : ℚ) (logoDecode : Except String (ℕ × ℕ)) :
    Except String (ℚ × ℚ × ℚ × ℚ) :=
  if page_width ≤ 0 ∨ page_height ≤ 0 then .error "페이지 크기가 유효하지 않습니다."
  else
    match logoDecode with
    | .error e => .error ("로고 크기 계산에 실패했습니다: " ++ e)
    | .ok (logo_w, logo_h) =>
      if logo_w = 0 ∨ logo_h = 0 then .error "로고 크기가 유효하지 않습니다."
      else
        let short_side := min page_width page_height
        let margin := short_side * margin_percent / 100
        let target_max := max (short_side * size_ratio) 1
        let logo_max : ℚ := ((max logo_w logo_h : ℕ) : ℚ)
        let scale := target_max / logo_max
        let draw_width := max ((logo_w : ℚ) * scale) 1
        let draw_height := max ((logo_h : ℚ) * scale) 1
        let max_x := max (page_width - draw_width) 0
        let max_y := max (page_height - draw_height) 0
        let left_x := min margin max_x
        let right_x := min (max (page_width - draw_width - margin) 0) max_x
        let bottom_y := min margin max_y
        let top_y := min (max (page_height - draw_height - margin) 0) max_y
        match position with
        | .topLeft => .ok (left_x, top_y, draw_width, draw_height)
        | .topRight => .ok (right_x, top_y, draw_width, draw_height)
        | .bottomLeft => .ok (left_x, bottom_y, draw_width, draw_height)
        | .bottomRight => .ok (right_x, bottom_y, draw_width, draw_height)

/-- Splitting a character list at every occurrence of a separator (the
substring splitting the path helpers below rely on; `[[]]` for the empty
list, as in Rust's `split`). -/
def splitOnChar (sep : Char) : List Char → List (List Char)
  | [] => [[]]
  | c :: rest =>
    match splitOnChar sep rest with
    | [] => [[c]]
    | g :: gs => if c = sep then [] :: g :: gs else (c :: g) :: gs

/-- Rust `char::to_ascii_lowercase`. -/
def asciiLower (c : Char) : Char :=
  if 'A' ≤ c ∧ c ≤ 'Z' then Char.ofNat (c.toNat + 32) else c

/-- Rust `str::to_ascii_lowercase`. -/
def asciiLowerString (s : String) : String := String.mk (s.data.map asciiLower)

/-- The final path component of a `/`-separated path (Rust `Path::file_name`,
for the well-formed absolute paths the app passes around). -/
def fileNameOf (p : String) : List Char := (splitOnChar '/' p.data).getLastD []

/-- Join character-list groups with `'.'` (inverse of splitting on `'.'`). -/
def joinWithDot : List (List Char) → List Char
  | [] => []
  | [g] => g
  | g :: gs => g ++ '.' :: joinWithDot gs

/-- Split a file name into Rust's `(file_stem, extension)`: the extension is
what follows the last `.`, except that a name with no `.`, or a leading-dot
name with no other `.`, has no extension. -/
def splitFileName (name : List Char) : List Char × Option (List Char) :=
  match splitOnChar '.' name with
  | [] => (name, none)
  | [_] => (name, none)
  | ps =>
    if ps.headD [] = [] ∧ ps.length = 2 then (name, none)
    else (joinWithDot ps.dropLast, some (ps.getLastD []))

/-- Rust `Path::extension`, on the string path model. -/
def pathExtension (p : String) : Option String :=
  ((splitFileName (fileNameOf p)).2).map String.mk

/-- Rust `Path::file_stem`, on the string path model. -/
def fileStem (p : String) : String := String.mk (splitFileName (fileNameOf p)).1

/-- `path_policy.rs::detect_supported_image`: the lower-cased extension when
it is one of `jpg`/`jpeg`/`png`/`webp` (the returned `SupportedFormat`'s
`output_extension`; the `image::ImageFormat` tag is determined by it). -/
def detectSupportedImage (p : String) : Option String :=
  match pathExtension p with
  | none => none
  | some e =>
    let extension := asciiLowerString e
    if extension = "jpg" ∨ extension = "jpeg" then some extension
    else if extension = "png" then some extension
    else if extension = "webp" then some extension
    else none

/-- `path_policy.rs::is_supported_pdf`: extension equals `pdf`,
case-insensitively. -/
def isSupportedPdf (p : String) : Bool :=
  match pathExtension p with
  | some e => asciiLowerString e == "pdf"
  | none => false

/-- The candidate probed by the collision loop at index `i ≥ 1`:
`"<base>(<i>).<ext>"`. -/
def loopCandidate (base ext : String) (i : ℕ) : String :=
  base ++ "(" ++ toString i ++ ")." ++ ext

/-- The full candidate sequence of the allocator: index 0 is
`"<base>.<ext>"`, index `i ≥ 1` is `"<base>(<i>).<ext>"`. -/
def outputCandidate (base ext : String) (i : ℕ) : String :=
  if i = 0 then base ++ "." ++ ext else loopCandidate base ext i

/-- The collision-probing loop shared by `build_output_path`,
`build_output_pdf_path` and `build_report_path`: starting at index `i`, probe
`"<base>(<i>).<ext>"`, incrementing with `u32::saturating_add` (`min (i+1)
(2^32-1)`).  The Rust loop is unbounded; the fuel counts the number of
*distinct* probes still possible, so `none` is returned exactly when every
candidate the Rust loop can ever reach exists, i.e. exactly when the Rust
loop diverges. -/
def probeLoop (existing : String → Bool) (base ext : String) : ℕ → ℕ → Option String
  | 0, _ => none
  | fuel + 1, i =>
    if existing (loopCandidate base ext i) then
      probeLoop existing base ext fuel (min (i + 1) (2 ^ 32 - 1))
    else
      some (loopCandidate base ext i)

/-- The `"<stem>_cornerbrand"` base name used by `build_output_path`
(stem defaulting to `"image"` when empty/absent). -/
def imageOutputBase (input : String) : String :=
  (if fileStem input = "" then "image" else fileStem input) ++ "_cornerbrand"

/-- The `"<stem>_cornerbrand"` base name used by `build_output_pdf_path`
(stem defaulting to `"file"`). -/
def pdfOutputBase (input : String) : String :=
  (if fileStem input = "" then "file" else fileStem input) ++ "_cornerbrand"

/-- `path_policy.rs::build_output_path`, with the destination directory
abstracted into the `existing` oracle (membership of a file name in the
destination directory).  `.ok (some name)` is a successful allocation,
`.ok none` is the diverging Rust loop (every reachable candidate exists),
`.error` is the unsupported-extension rejection. -/
def buildOutputPath (existing : String → Bool) (input : String) :
    Except String (Option String) :=
  match detectSupportedImage input with
  | none => .error "지원하지 않는 이미지 형식입니다. (jpg/png/webp)"
  | some ext =>
    let base_name := imageOutputBase input
    let first := base_name ++ "." ++ ext
    if existing first then .ok (probeLoop existing base_name ext (2 ^ 32 - 1) 1)
    else .ok (some first)

/-- `path_policy.rs::build_output_pdf_path`, abstracted like
`buildOutputPath`; the extension is always `pdf`. -/
def buildOutputPdfPath (existing : String → Bool) (input : String) :
    Except String (Option String) :=
  if !isSupportedPdf input then .error "지원하지 않는 PDF 형식입니다. (.pdf)"
  else
    let base_name := pdfOutputBase input
    let first := base_name ++ ".pdf"
    if existing first then .ok (probeLoop existing base_name "pdf" (2 ^ 32 - 1) 1)
    else .ok (some first)

/-- `lopdf::ObjectId`: an object number / generation number pair. -/
def ObjectId : Type := ℕ × ℕ
deriving DecidableEq

/-- The fragment of `lopdf::Object` that `resolve_page_size`,
`get_object_dictionary` and `parse_media_box` inspect. -/
inductive PdfObject where
  | dict (entries : List (String × PdfObject))
  | stream (entries : List (String × PdfObject))
  | ref (id : ObjectId)
  | arr (elems : List PdfObject)
  | int (z : ℤ)
  | real (q : ℚ)
  | other

/-- `lopdf::Dictionary::get`: first entry with the given key. -/
def dictGet (entries : List (String × PdfObject)) (key : String) : Option PdfObject :=
  (entries.find? (fun e => e.1 == key)).map (fun e => e.2)

/-- A loaded `lopdf::Document`: the object store and the logical page list
(`get_pages`, page number to page object id, in ascending page order). -/
structure PdfDoc where
  objects : ObjectId → Option PdfObject
  pages : List (ℕ × ObjectId)

/-- `pdf_engine.rs::get_object_dictionary`: fetch an object and view it as a
dictionary (plain dictionaries and stream dictionaries are accepted). -/
def getObjectDictionary (doc : PdfDoc) (object_id : ObjectId) :
    Except String (List (String × PdfObject)) :=
  match doc.objects object_id with
  | none => .error "객체 조회 실패"
  | some (.dict d) => .ok d
  | some (.stream d) => .ok d
  | some _ => .error "페이지 객체가 Dictionary/Stream이 아닙니다."

/-- `pdf_engine.rs::object_to_f64`. -/
def objectToF64 (obj : PdfObject) : Except String ℚ :=
  match obj with
  | .int v => .ok (v : ℚ)
  | .real v => .ok v
  | _ => .error "MediaBox 좌표가 숫자가 아닙니다."

/-- The `let arr_ref = match obj ...` prelude of
`pdf_engine.rs::parse_media_box`: the MediaBox entry must be an array,
directly or through one indirect reference. -/
def mediaBoxArray (doc : PdfDoc) (obj : PdfObject) : Except String (List PdfObject) :=
  match obj with
  | .arr a => Except.ok a
  | .ref object_id =>
    match doc.objects object_id with
    | none => Except.error "MediaBox 참조 객체 조회 실패"
    | some (.arr a) => Except.ok a
    | some _ => Except.error "MediaBox 참조 객체가 배열이 아닙니다."
  | _ => Except.error "MediaBox는 배열이어야 합니다."

/-- `pdf_engine.rs::parse_media_box`: the object (directly an array, or via
one indirect reference) must be a 4-element numeric array
`[llx, lly, urx, ury]` with positive `urx - llx` and `ury - lly`. -/
def parseMediaBox (doc : PdfDoc) (obj : PdfObject) : Except String (ℚ × ℚ) :=
  match mediaBoxArray doc obj with
  | .error e => .error e
  | .ok arr =>
    match arr with
    | [a0, a1, a2, a3] =>
      match objectToF64 a0 with
      | .error e => .error e
      | .ok llx =>
        match objectToF64 a1 with
        | .error e => .error e
        | .ok lly =>
          match objectToF64 a2 with
          | .error e => .error e
          | .ok urx =>
            match objectToF64 a3 with
            | .error e => .error e
            | .ok ury =>
              let width := urx - llx
              let height := ury - lly
              if width ≤ 0 ∨ height ≤ 0 then
                .error "MediaBox 너비/높이가 0 이하입니다."
              else .ok (width, height)
    | _ => .error "MediaBox 길이가 4가 아닙니다."

/-- The `for _ in 0..32` walk of `pdf_engine.rs::resolve_page_size`: look up
the current object's dictionary, return the parsed MediaBox if present, else
follow a `Parent` reference; a missing/non-reference parent breaks out, and
both the break and the exhausted bound fall through to the hard
"MediaBox not found" error. -/
def resolvePageSizeAux (doc : PdfDoc) (page_number : ℕ) :
    ℕ → ObjectId → Except String (ℚ × ℚ)
  | 0, _ =>
    .error ("페이지 " ++ toString page_number ++ "의 MediaBox를 찾지 못했습니다.")
  | fuel + 1, current_id =>
    match getObjectDictionary doc current_id with
    | .error e =>
      .error ("페이지 " ++ toString page_number ++ " 객체를 읽지 못했습니다: " ++ e)
    | .ok dict =>
      match dictGet dict "MediaBox" with
      | some media_box =>
        match parseMediaBox doc media_box with
        | .error e =>
          .error ("페이지 " ++ toString page_number ++ " MediaBox를 해석하지 못했습니다: " ++ e)
        | .ok wh => .ok wh
      | none =>
        match dictGet dict "Parent" with
        | some (.ref parent_id) => resolvePageSizeAux doc page_number fuel parent_id
        | _ =>
          .error ("페이지 " ++ toString page_number ++ "의 MediaBox를 찾지 못했습니다.")

/-- `pdf_engine.rs::resolve_page_size`: the walk above, bounded at 32 hops. -/
def resolvePageSize (doc : PdfDoc) (page_id : ObjectId) (page_number : ℕ) :
    Except String (ℚ × ℚ) :=
  resolvePageSizeAux doc page_number 32 page_id

/-- The number of dictionaries the bounded walk fetches (each iteration of
the Rust loop performs exactly one `get_object_dictionary`). -/
def resolvePageSizeVisits (doc : PdfDoc) : ℕ → ObjectId → ℕ
  | 0, _ => 0
  | fuel + 1, current_id =>
    match getObjectDictionary doc current_id with
    | .error _ => 1
    | .ok dict =>
      match dictGet dict "MediaBox" with
      | some _ => 1
      | none =>
        match dictGet dict "Parent" with
        | some (.ref parent_id) => 1 + resolvePageSizeVisits doc fuel parent_id
        | _ => 1

/-- The MediaBox object found by the bounded `Parent`-chain walk, if any
(same traversal as `resolvePageSizeAux`, recording what was found). -/
def mediaBoxWithin (doc : PdfDoc) : ℕ → ObjectId → Option PdfObject
  | 0, _ => none
  | fuel + 1, current_id =>
    match getObjectDictionary doc current_id with
    | .error _ => none
    | .ok dict =>
      match dictGet dict "MediaBox" with
      | some media_box => some media_box
      | none =>
        match dictGet dict "Parent" with
        | some (.ref parent_id) => mediaBoxWithin doc fuel parent_id
        | _ => none

/-- A per-file stamping result (`image_engine.rs::StampFileResult`). -/
structure StampFileResult where
  input_path : String
  ok : Bool
  output_path : Option String
  error : Option String
deriving DecidableEq

/-- `image_engine.rs::failure_result` / `pdf_engine.rs::failure_result`. -/
def failureResult (input_path error : String) : StampFileResult :=
  { input_path := input_path, ok := false, output_path := none, error := some error }

/-- Observable side effects of stamping one PDF file: a page receiving its
logo, and the output document being written. -/
inductive PdfEvent where
  | stamped (page_number : ℕ)
  | saved
deriving DecidableEq

/-- The I/O outcomes `stamp_single_pdf` depends on: loading the document,
decoding the logo stream (`image::load_from_memory` inside
`compute_logo_rect`), building the logo XObject (`lopdf::xobject::image_from`),
inserting it into a page (`Document::insert_image`), allocating the output
path, and saving. -/
structure PdfEnv where
  loadDoc : Except String PdfDoc
  logoDims : Except String (ℕ × ℕ)
  imageFrom : Except String Unit
  insertImage : ObjectId → ℚ × ℚ × ℚ × ℚ → Except String Unit
  outputPath : Except String String
  saveDoc : Except String Unit

/-- The body of the per-page loop in `pdf_engine.rs::stamp_single_pdf`:
resolve the page size, compute the rectangle, build the XObject, insert.
Errors carry the same messages the source formats. -/
def stampOnePage (env : PdfEnv) (doc : PdfDoc) (position : CornerPosition)
    (size_ratio margin_percent : ℚ) (page : ℕ × ObjectId) : Except String Unit :=
  match resolvePageSize doc page.2 page.1 with
  | .error e => .error e
  | .ok (page_width, page_height) =>
    match computeLogoRect page_width page_height position size_ratio margin_percent
        env.logoDims with
    | .error e => .error e
    | .ok rect =>
      match env.imageFrom with
      | .error e => .error ("로고 XObject 생성에 실패했습니다: " ++ e)
      | .ok _ =>
        match env.insertImage page.2 rect with
        | .error e =>
          .error ("페이지 " ++ toString page.1 ++ "에 로고 삽입 실패: " ++ e)
        | .ok _ => .ok ()

/-- The page loop of `stamp_single_pdf`: pages are processed in order; the
first failing page aborts the loop, discarding no already-emitted events. -/
def stampPagesLoop (env : PdfEnv) (doc : PdfDoc) (position : CornerPosition)
    (size_ratio margin_percent : ℚ) :
    List (ℕ × ObjectId) → List PdfEvent × Option String
  | [] => ([], none)
  | page :: rest =>
    match stampOnePage env doc position size_ratio margin_percent page with
    | .error e => ([], some e)
    | .ok _ =>
      let (events, err) := stampPagesLoop env doc position size_ratio margin_percent rest
      (.stamped page.1 :: events, err)

/-- `pdf_engine.rs::stamp_single_pdf` (with resolved settings, finite
margin): extension check, document load, zero-page check, the per-page loop,
then output-path allocation and save.  The trace records which pages were
stamped and whether the output document write was reached; `.saved` is
emitted exactly when `doc.save` is attempted. -/
def stampSinglePdf (env : PdfEnv) (input_path : String) (position : CornerPosition)
    (size_ratio margin_percent : ℚ) : List PdfEvent × Except String String :=
  if !isSupportedPdf input_path then ([], .error "지원하지 않는 PDF 형식입니다. (.pdf)")
  else
    match env.loadDoc with
    | .error e => ([], .error ("PDF를 읽지 못했습니다: " ++ e))
    | .ok doc =>
      if doc.pages.isEmpty then ([], .error "페이지가 없는 PDF 파일입니다.")
      else
        match stampPagesLoop env doc position size_ratio margin_percent doc.pages with
        | (events, some e) => (events, .error e)
        | (events, none) =>
          match env.outputPath with
          | .error e => (events, .error e)
          | .ok output_path =>
            match env.saveDoc with
            | .error e =>
              (events ++ [.saved], .error ("결과 PDF를 저장하지 못했습니다: " ++ e))
            | .ok _ => (events ++ [.saved], .ok output_path)

/-- `batch.rs::unsupported_type_result`. -/
def unsupportedTypeResult (input_path : String) : StampFileResult :=
  { input_path := input_path, ok := false, output_path := none,
    error := some "지원하지 않는 파일 형식입니다. (jpg/jpeg/png/webp/pdf)" }

/-- `batch.rs::cancelled_result`: the fixed cancellation marker. -/
def cancelledResult (input_path : String) : StampFileResult :=
  { input_path := input_path, ok := false, output_path := none, error := some "취소됨" }

/-- `batch.rs::ProgressUpdate`. -/
structure ProgressUpdate where
  total : ℕ
  done : ℕ
  input_path : String
  ok : Bool
deriving DecidableEq

/-- The I/O outcomes the batch pipeline depends on: loading the logo bitmap
(`image::open` in `stamp_images`), building the flattened logo stream
(`build_logo_stream` in `stamp_pdfs`), and the per-file outcome of
`stamp_single_image` / `stamp_single_pdf` (output path or error message) as
a function of the resolved settings and the input path. -/
structure BatchEnv where
  openLogo : Except String Unit
  stampImage : StampSettings → String → Except String String
  buildLogoStream : Except String Unit
  stampPdf : StampSettings → String → Except String String

/-- `image_engine.rs::stamp_images`: resolve settings (a resolution error
fails every path with that error), load the logo (ditto, with the formatted
message), then stamp each path, wrapping outcomes into `StampFileResult`s. -/
def stampImages (env : BatchEnv) (paths : List String)
    (settings_input : StampSettingsInput) : List StampFileResult :=
  match imageSettingsTryFrom settings_input with
  | .error err => paths.map (fun path => failureResult path err)
  | .ok settings =>
    match env.openLogo with
    | .error e =>
      paths.map (fun path => failureResult path ("로고 리소스를 읽지 못했습니다: " ++ e))
    | .ok _ =>
      paths.map (fun input =>
        match env.stampImage settings input with
        | .ok output_path =>
          { input_path := input, ok := true, output_path := some output_path,
            error := none }
        | .error error => failureResult input error)

/-- `pdf_engine.rs::stamp_pdfs`: same shape as `stampImages` over the PDF
resolver, the logo stream builder and the per-file PDF stamper. -/
def stampPdfs (env : BatchEnv) (paths : List String)
    (settings_input : StampSettingsInput) : List StampFileResult :=
  match pdfSettingsTryFrom settings_input with
  | .error err => paths.map (fun path => failureResult path err)
  | .ok settings =>
    match env.buildLogoStream with
    | .error err => paths.map (fun path => failureResult path err)
    | .ok _ =>
      paths.map (fun input =>
        match env.stampPdf settings input with
        | .ok output_path =>
          { input_path := input, ok := true, output_path := some output_path,
            error := none }
        | .error error => failureResult input error)

/-- The per-file settings override of `batch.rs::stamp_batch_with_progress`
(lines 77–82): a per-path explicit size percentage, clamped to `[1, 300]`,
replaces the payload's `size_percent` for that file only. -/
def settingsForInput (settings : StampSettingsInput)
    (size_percent_by_path : Option (String → Option FloatVal)) (input : String) :
    StampSettingsInput :=
  match size_percent_by_path with
  | some size_map =>
    match size_map input with
    | some size_percent =>
      { settings with size_percent := some (size_percent.clamp 1 300) }
    | none => settings
  | none => settings

/-- The extension dispatch and single-file call of the batch loop body:
image vs PDF vs unsupported, with the `next().unwrap_or_else` fallback. -/
def processInput (env : BatchEnv) (settings_for_input : StampSettingsInput)
    (input : String) : StampFileResult :=
  if (detectSupportedImage input).isSome then
    match stampImages env [input] settings_for_input with
    | result :: _ => result
    | [] => unsupportedTypeResult input
  else if isSupportedPdf input then
    match stampPdfs env [input] settings_for_input with
    | result :: _ => result
    | [] => unsupportedTypeResult input
  else unsupportedTypeResult input

/-- The `for (index, input)` loop of `batch.rs::stamp_batch_with_progress`.
`cancelled index` is what `is_request_cancelled` returns at the check
performed before starting file `index` (the registry is external, mutable
state, so it is an oracle indexed by the check).  The returned pair is the
accumulated results and the emitted progress updates, in order. -/
def stampBatchLoop (env : BatchEnv) (settings : StampSettingsInput)
    (request_id : Option String) (cancelled : ℕ → Bool)
    (size_percent_by_path : Option (String → Option FloatVal)) (total : ℕ) :
    List String → ℕ → List StampFileResult × List ProgressUpdate
  | [], _ => ([], [])
  | input :: rest, index =>
    if (match request_id with
        | some _ => cancelled index
        | none => false) then
      ((input :: rest).map cancelledResult, [])
    else
      let result := processInput env (settingsForInput settings size_percent_by_path input) input
      let step := stampBatchLoop env settings request_id cancelled size_percent_by_path
        total rest (index + 1)
      (result :: step.1,
        { total := total, done := index + 1, input_path := input, ok := result.ok }
          :: step.2)

/-- `batch.rs::stamp_batch_with_progress` (the report writing at the end is
a silently-swallowed side effect with no influence on the returned results,
so it does not appear in the value model). -/
def stampBatchWithProgress (env : BatchEnv) (paths : List String)
    (settings : StampSettingsInput) (request_id : Option String)
    (cancelled : ℕ → Bool)
    (size_percent_by_path : Option (String → Option FloatVal)) :
    List StampFileResult × List ProgressUpdate :=
  stampBatchLoop env settings request_id cancelled size_percent_by_path
    paths.length paths 0

/-- The progress trace the loop emits for the files it actually processes,
starting at a given index. -/
def progressTrace (env : BatchEnv) (settings : StampSettingsInput)
    (size_percent_by_path : Option (String → Option FloatVal)) (total : ℕ) :
    List String → ℕ → List ProgressUpdate
  | [], _ => []
  | input :: rest, index =>
    { total := total, done := index + 1, input_path := input,
      ok := (processInput env (settingsForInput settings size_percent_by_path input) input).ok }
      :: progressTrace env settings size_percent_by_path total rest (index + 1)

/-! ## Helper lemmas -/

theorem presetRatio_bounds (s : String) (r : ℚ) (h : presetRatio s = .ok r) :
    0 < r ∧ r ≤ 16 / 100 := by
  unfold presetRatio at h
  repeat' split at h
  all_goals first
    | (cases h; norm_num)
    | exact absurd h (by simp)

theorem parsePosition_error (s e : String) (h : parsePosition s = .error e) :
    e = "유효하지 않은 위치 값입니다." := by
  unfold parsePosition at h
  repeat' split at h
  all_goals simp_all

theorem FloatVal.clamp_memIcc (lo hi : ℚ) (hlohi : lo ≤ hi) (v : FloatVal)
    (h : v ≠ .nan) : (v.clamp lo hi).memIcc lo hi := by
  cases v with
  | fin q =>
    exact ⟨le_min (le_max_right q lo) hlohi, min_le_right _ _⟩
  | nan => exact absurd rfl h
  | inf => exact ⟨hlohi, le_refl hi⟩
  | ninf => exact ⟨le_refl lo, hlohi⟩

/-! ## Claims -/

/-- C2: for every raw settings payload with a finite explicit size
percentage, the image-path resolver clamps it to `[1, 300]` and the PDF-path
resolver clamps it to `[1, 50]`, each then dividing by 100 to produce
`size_ratio` — the two clamp ceilings stay different. -/
theorem c2_explicit_size_clamped (value : StampSettingsInput) (q : ℚ)
    (h : value.size_percent = some (.fin q)) :
    (∀ s, imageSettingsTryFrom value = .ok s → s.size_ratio = min (max q 1) 300 / 100)
    ∧ (∀ s, pdfSettingsTryFrom value = .ok s → s.size_ratio = min (max q 1) 50 / 100) := by
  constructor <;> intro s hs
  · unfold imageSettingsTryFrom at hs
    rw [h] at hs
    cases hp : parsePosition value.position <;> rw [hp] at hs <;> simp at hs
    rw [← hs]
  · unfold pdfSettingsTryFrom at hs
    rw [h] at hs
    cases hp : parsePosition value.position <;> rw [hp] at hs <;> simp at hs
    rw [← hs]

/-- Witness for C2 at the payload of the repository's own clamp test
(`999%`, bottom-right): the hypothesis holds and both clamp equations follow. -/
theorem c2_witness :
    (({ position := "우하단", size_preset := "보통", size_percent := some (.fin 999),
        margin_percent := .fin 0 } : StampSettingsInput).size_percent
      = some (.fin 999))
    ∧ (∀ s, imageSettingsTryFrom
          { position := "우하단", size_preset := "보통", size_percent := some (.fin 999),
            margin_percent := .fin 0 } = .ok s →
        s.size_ratio = min (max 999 1) 300 / 100)
    ∧ (∀ s, pdfSettingsTryFrom
          { position := "우하단", size_preset := "보통", size_percent := some (.fin 999),
            margin_percent := .fin 0 } = .ok s →
        s.size_ratio = min (max 999 1) 50 / 100) :=
  ⟨rfl, (c2_explicit_size_clamped _ 999 rfl).1, (c2_explicit_size_clamped _ 999 rfl).2⟩


/-- Anatomy of a successful image-path resolution: position from the label
match, margin from the `[0, 20]` clamp, and `size_ratio` either from the
`[1, 300]` clamp of a finite explicit percentage or from the preset table. -/
theorem imageSettingsTryFrom_ok_elim (value : StampSettingsInput) (s : StampSettings)
    (h : imageSettingsTryFrom value = .ok s) :
    parsePosition value.position = .ok s.position
    ∧ s.margin_percent = value.margin_percent.clamp 0 20
    ∧ ((∃ q, value.size_percent = some (.fin q)
          ∧ s.size_ratio = min (max q 1) 300 / 100)
       ∨ presetRatio value.size_preset = .ok s.size_ratio) := by
  unfold imageSettingsTryFrom at h
  cases hp : parsePosition value.position <;> rw [hp] at h <;> simp at h
  rcases hv : value.size_percent with _ | f
  · rw [hv] at h
    cases hr : presetRatio value.size_preset <;> rw [hr] at h <;> simp at h
    subst h
    exact ⟨rfl, rfl, Or.inr rfl⟩
  · rcases f with q | _ | _ | _ <;> rw [hv] at h
    · simp at h
      subst h
      exact ⟨rfl, rfl, Or.inl ⟨q, rfl, rfl⟩⟩
    all_goals
      cases hr : presetRatio value.size_preset <;> rw [hr] at h <;> simp at h
    all_goals (subst h; exact ⟨rfl, rfl, Or.inr rfl⟩)

/-- Anatomy of a successful PDF-path resolution (clamp ceiling 50). -/
theorem pdfSettingsTryFrom_ok_elim (value : StampSettingsInput) (s : StampSettings)
    (h : pdfSettingsTryFrom value = .ok s) :
    parsePosition value.position = .ok s.position
    ∧ s.margin_percent = value.margin_percent.clamp 0 20
    ∧ ((∃ q, value.size_percent = some (.fin q)
          ∧ s.size_ratio = min (max q 1) 50 / 100)
       ∨ presetRatio value.size_preset = .ok s.size_ratio) := by
  unfold pdfSettingsTryFrom at h
  cases hp : parsePosition value.position <;> rw [hp] at h <;> simp at h
  rcases hv : value.size_percent with _ | f
  · rw [hv] at h
    cases hr : presetRatio value.size_preset <;> rw [hr] at h <;> simp at h
    subst h
    exact ⟨rfl, rfl, Or.inr rfl⟩
  · rcases f with q | _ | _ | _ <;> rw [hv] at h
    · simp at h
      subst h
      exact ⟨rfl, rfl, Or.inl ⟨q, rfl, rfl⟩⟩
    all_goals
      cases hr : presetRatio value.size_preset <;> rw [hr] at h <;> simp at h
    all_goals (subst h; exact ⟨rfl, rfl, Or.inr rfl⟩)

/-- C3 (amended): every successfully resolved payload has
`size_ratio ∈ (0, 3]` on both resolution paths; `margin_percent ∈ [0, 20]`
holds *provided the raw margin is not NaN* (Rust's `f32::clamp` lets NaN
through, so a NaN-margin payload still resolves, carrying a NaN margin);
and with an explicit finite size percentage present, resolution can only
fail with the invalid-position error — out-of-range explicit sizes are
clamped, never rejected. -/
theorem c3_resolved_settings_invariants :
    (∀ value s, imageSettingsTryFrom value = .ok s →
        (0 < s.size_ratio ∧ s.size_ratio ≤ 3)
        ∧ (value.margin_percent ≠ .nan → s.margin_percent.memIcc 0 20))
    ∧ (∀ value s, pdfSettingsTryFrom value = .ok s →
        (0 < s.size_ratio ∧ s.size_ratio ≤ 3)
        ∧ (value.margin_percent ≠ .nan → s.margin_percent.memIcc 0 20))
    ∧ (∀ value q e, value.size_percent = some (.fin q) →
        imageSettingsTryFrom value = .error e → e = "유효하지 않은 위치 값입니다.")
    ∧ (∀ value q e, value.size_percent = some (.fin q) →
        pdfSettingsTryFrom value = .error e → e = "유효하지 않은 위치 값입니다.") := by
  refine ⟨fun value s hs => ?_, fun value s hs => ?_,
    fun value q e hq he => ?_, fun value q e hq he => ?_⟩
  · obtain ⟨-, hm, hr⟩ := imageSettingsTryFrom_ok_elim value s hs
    refine ⟨?_, fun hnn => hm ▸ FloatVal.clamp_memIcc 0 20 (by norm_num) _ hnn⟩
    rcases hr with ⟨q, -, hq⟩ | hr
    · have h1 : (1 : ℚ) ≤ min (max q 1) 300 := le_min (le_max_right q 1) (by norm_num)
      have h2 : min (max q 1) 300 ≤ 300 := min_le_right _ _
      rw [hq]
      constructor <;> linarith
    · obtain ⟨h1, h2⟩ := presetRatio_bounds _ _ hr
      constructor <;> linarith
  · obtain ⟨-, hm, hr⟩ := pdfSettingsTryFrom_ok_elim value s hs
    refine ⟨?_, fun hnn => hm ▸ FloatVal.clamp_memIcc 0 20 (by norm_num) _ hnn⟩
    rcases hr with ⟨q, -, hq⟩ | hr
    · have h1 : (1 : ℚ) ≤ min (max q 1) 50 := le_min (le_max_right q 1) (by norm_num)
      have h2 : min (max q 1) 50 ≤ 50 := min_le_right _ _
      rw [hq]
      constructor <;> linarith
    · obtain ⟨h1, h2⟩ := presetRatio_bounds _ _ hr
      constructor <;> linarith
  · unfold imageSettingsTryFrom at he
    cases hp : parsePosition value.position <;> rw [hp] at he
    · simp at he
      rw [← he]
      exact parsePosition_error _ _ hp
    · rw [hq] at he
      simp at he
  · unfold pdfSettingsTryFrom at he
    cases hp : parsePosition value.position <;> rw [hp] at he
    · simp at he
      rw [← he]
      exact parsePosition_error _ _ hp
    · rw [hq] at he
      simp at he

/-- Counterexample to C3 as stated: a payload whose `margin_percent` is NaN
resolves successfully on the image path, but its resolved margin is NaN,
which is not in `[0, 20]` — "margin_percent ∈ [0, 20]" fails for this
successfully-resolved payload. -/
theorem c3_counterexample :
    imageSettingsTryFrom
      { position := "좌상단", size_preset := "보통", size_percent := none,
        margin_percent := .nan }
      = .ok { position := .topLeft, size_ratio := 0.12, margin_percent := .nan }
    ∧ ¬ (FloatVal.nan.memIcc 0 20) :=
  ⟨by simp [imageSettingsTryFrom, parsePosition, presetRatio, FloatVal.clamp],
   by simp [FloatVal.memIcc]⟩

/-- Witness for C3's amended theorem at a concrete payload: the image-path
invariants instantiated at the repository test's settings (bottom-right,
medium preset, margin 2). -/
theorem c3_witness :
    (imageSettingsTryFrom { position := "우하단", size_preset := "보통", size_percent := none, margin_percent := .fin 2 } = .ok { position := .bottomRight, size_ratio := 0.12, margin_percent := .fin 2 })
    ∧ ((0 < ({ position := .bottomRight, size_ratio := 0.12, margin_percent := .fin 2 } : StampSettings).size_ratio ∧ ({ position := .bottomRight, size_ratio := 0.12, margin_percent := .fin 2 } : StampSettings).size_ratio ≤ 3)
       ∧ (({ position := "우하단", size_preset := "보통", size_percent := none, margin_percent := .fin 2 } : StampSettingsInput).margin_percent ≠ .nan →
          ({ position := .bottomRight, size_ratio := 0.12, margin_percent := .fin 2 } : StampSettings).margin_percent.memIcc 0 20)) :=
  ⟨by simp [imageSettingsTryFrom, parsePosition, presetRatio, FloatVal.clamp]
      norm_num,
   c3_resolved_settings_invariants.1 _ _
     (by simp [imageSettingsTryFrom, parsePosition, presetRatio, FloatVal.clamp]
         norm_num)⟩

/-- C10: on every payload whose explicit size percentage is absent or
non-finite, the two independently implemented resolvers agree exactly: same
accepted labels, same errors, same preset ratio, same clamped margin — they
can differ only through the explicit-size clamp ceiling, which is not
exercised on these payloads. -/
theorem c10_resolver_equivalence (value : StampSettingsInput)
    (h : value.size_percent = none
      ∨ ∃ f, value.size_percent = some f ∧ f.isFinite = false) :
    imageSettingsTryFrom value = pdfSettingsTryFrom value := by
  unfold imageSettingsTryFrom pdfSettingsTryFrom
  rcases h with h | ⟨f, hf, hfin⟩
  · rw [h]
  · rcases f with q | _ | _ | _
    · simp [FloatVal.isFinite] at hfin
    all_goals rw [hf]

/-- Witness for C10 at a concrete preset-only payload. -/
theorem c10_witness :
    (({ position := "좌하단", size_preset := "큼", size_percent := none, margin_percent := .fin 5 } : StampSettingsInput).size_percent = none
      ∨ ∃ f, ({ position := "좌하단", size_preset := "큼", size_percent := none, margin_percent := .fin 5 } : StampSettingsInput).size_percent = some f ∧ f.isFinite = false)
    ∧ imageSettingsTryFrom { position := "좌하단", size_preset := "큼", size_percent := none, margin_percent := .fin 5 }
      = pdfSettingsTryFrom { position := "좌하단", size_preset := "큼", size_percent := none, margin_percent := .fin 5 } :=
  ⟨Or.inl rfl, c10_resolver_equivalence _ (Or.inl rfl)⟩

theorem stampBatchLoop_override_congr (env : BatchEnv) (si : StampSettingsInput)
    (request_id : Option String) (cancelled : ℕ → Bool) (total : ℕ)
    (o1 o2 : Option (String → Option FloatVal))
    (h : ∀ input, settingsForInput si o1 input = settingsForInput si o2 input) :
    ∀ (paths : List String) (idx : ℕ),
      stampBatchLoop env si request_id cancelled o1 total paths idx
        = stampBatchLoop env si request_id cancelled o2 total paths idx := by
  intro paths
  induction paths with
  | nil => intro idx; rfl
  | cons p rest ih =>
    intro idx
    unfold stampBatchLoop
    split
    · rfl
    · rw [h p, ih]

/-- C9: an explicit size percentage of `300` and any explicit value `q ≥ 300`
resolve to identical settings on the image path (both clamp to ratio `3.0`),
hence the whole image-stamping pipeline — a deterministic function of the
resolved settings and the input — produces identical results for them; the
same holds for the batch per-file override map, whose clamp ceiling is also
300. -/
theorem c9_oversize_percent_equal_output (position size_preset : String)
    (margin : FloatVal) (q : ℚ) (hq : 300 ≤ q) :
    imageSettingsTryFrom
        { position := position, size_preset := size_preset,
          size_percent := some (.fin q), margin_percent := margin }
      = imageSettingsTryFrom
        { position := position, size_preset := size_preset,
          size_percent := some (.fin 300), margin_percent := margin }
    ∧ (∀ env paths,
        stampImages env paths
            { position := position, size_preset := size_preset,
              size_percent := some (.fin q), margin_percent := margin }
          = stampImages env paths
            { position := position, size_preset := size_preset,
              size_percent := some (.fin 300), margin_percent := margin })
    ∧ (∀ env paths si request_id cancelled,
        stampBatchWithProgress env paths si request_id cancelled
            (some (fun _ => some (.fin q)))
          = stampBatchWithProgress env paths si request_id cancelled
            (some (fun _ => some (.fin 300)))) := by
  have hq1 : (1 : ℚ) ≤ q := by linarith
  have key : min (max q 1) 300 = min (max (300 : ℚ) 1) 300 := by
    rw [max_eq_left hq1, min_eq_right hq]
    norm_num
  have htry : imageSettingsTryFrom
      { position := position, size_preset := size_preset,
        size_percent := some (.fin q), margin_percent := margin }
    = imageSettingsTryFrom
      { position := position, size_preset := size_preset,
        size_percent := some (.fin 300), margin_percent := margin } := by
    unfold imageSettingsTryFrom
    dsimp only
    rw [key]
  refine ⟨htry, fun env paths => ?_, fun env paths si request_id cancelled => ?_⟩
  · unfold stampImages
    rw [htry]
  · have hgap : ∀ input,
        settingsForInput si (some (fun _ => some (.fin q))) input
          = settingsForInput si (some (fun _ => some (.fin 300))) input := by
      intro input
      unfold settingsForInput
      simp only [FloatVal.clamp]
      rw [key]
    exact stampBatchLoop_override_congr env si request_id cancelled paths.length
      _ _ hgap paths 0

/-- Witness for C9 at `q = 1000` (the repository test's pairing of `300` and
`1000`). -/
theorem c9_witness :
    ((300 : ℚ) ≤ 1000)
    ∧ imageSettingsTryFrom
        { position := "우하단", size_preset := "보통",
          size_percent := some (.fin 1000), margin_percent := .fin 0 }
      = imageSettingsTryFrom
        { position := "우하단", size_preset := "보통",
          size_percent := some (.fin 300), margin_percent := .fin 0 } :=
  ⟨by norm_num,
   (c9_oversize_percent_equal_output "우하단" "보통" (.fin 0) 1000 (by norm_num)).1⟩

theorem processInput_input_path (env : BatchEnv) (settings_for_input : StampSettingsInput)
    (input : String) :
    (processInput env settings_for_input input).input_path = input := by
  unfold processInput
  split
  · unfold stampImages
    cases himg : imageSettingsTryFrom settings_for_input with
    | error err => simp [failureResult]
    | ok s =>
      cases hl : env.openLogo with
      | error e => simp [failureResult]
      | ok u =>
        cases hs : env.stampImage s input with
        | error e2 => simp [hs, failureResult]
        | ok out => simp [hs]
  · split
    · unfold stampPdfs
      cases hpdf : pdfSettingsTryFrom settings_for_input with
      | error err => simp [failureResult]
      | ok s =>
        cases hl : env.buildLogoStream with
        | error e => simp [failureResult]
        | ok u =>
          cases hs : env.stampPdf s input with
          | error e2 => simp [hs, failureResult]
          | ok out => simp [hs]
    · simp [unsupportedTypeResult]

theorem stampBatchLoop_results_shape (env : BatchEnv) (settings : StampSettingsInput)
    (request_id : Option String) (cancelled : ℕ → Bool)
    (size_percent_by_path : Option (String → Option FloatVal)) (total : ℕ) :
    ∀ (paths : List String) (idx : ℕ),
      ((stampBatchLoop env settings request_id cancelled size_percent_by_path
          total paths idx).1).map (fun r => r.input_path) = paths := by
  intro paths
  induction paths with
  | nil => intro idx; rfl
  | cons p rest ih =>
    intro idx
    unfold stampBatchLoop
    split
    · rw [List.map_map]
      show List.map (fun r => r) (p :: rest) = p :: rest
      simp
    · simp only [List.map_cons]
      rw [processInput_input_path, ih]

/-- C5: the batch orchestrator returns exactly one `StampFileResult` per
input path, in input order — the results' `input_path` projection is the
input list itself and the cardinality matches — for every environment,
settings payload, request id, cancellation behaviour and override map
(hence in particular under mid-run cancellation and under unsupported
extensions). -/
theorem c5_batch_order_and_cardinality (env : BatchEnv) (paths : List String)
    (settings : StampSettingsInput) (request_id : Option String)
    (cancelled : ℕ → Bool)
    (size_percent_by_path : Option (String → Option FloatVal)) :
    ((stampBatchWithProgress env paths settings request_id cancelled
        size_percent_by_path).1).map (fun r => r.input_path) = paths
    ∧ (stampBatchWithProgress env paths settings request_id cancelled
        size_percent_by_path).1.length = paths.length := by
  have h := stampBatchLoop_results_shape env settings request_id cancelled
    size_percent_by_path paths.length paths 0
  refine ⟨h, ?_⟩
  have := congrArg List.length h
  simpa using this

theorem progressTrace_length (env : BatchEnv) (settings : StampSettingsInput)
    (size_percent_by_path : Option (String → Option FloatVal)) (total : ℕ) :
    ∀ (inputs : List String) (idx : ℕ),
      (progressTrace env settings size_percent_by_path total inputs idx).length
        = inputs.length := by
  intro inputs
  induction inputs with
  | nil => intro idx; rfl
  | cons p rest ih =>
    intro idx
    unfold progressTrace
    simp [ih]

theorem stampBatchLoop_cancel_char (env : BatchEnv) (settings : StampSettingsInput)
    (rid : String) (cancelled : ℕ → Bool)
    (size_percent_by_path : Option (String → Option FloatVal)) (total : ℕ) :
    ∀ (paths : List String) (k idx : ℕ),
      k ≤ paths.length →
      (∀ j, j < k → cancelled (idx + j) = false) →
      (k < paths.length → cancelled (idx + k) = true) →
      stampBatchLoop env settings (some rid) cancelled size_percent_by_path
          total paths idx
        = ((paths.take k).map
              (fun p => processInput env (settingsForInput settings size_percent_by_path p) p)
            ++ (paths.drop k).map cancelledResult,
           progressTrace env settings size_percent_by_path total (paths.take k) idx) := by
  intro paths
  induction paths with
  | nil =>
    intro k idx hk hfirst hc
    have hk0 : k = 0 := Nat.le_zero.mp hk
    subst hk0
    rfl
  | cons p rest ih =>
    intro k idx hk hfirst hc
    match k with
    | 0 =>
      have hcan : cancelled idx = true := by simpa using hc (Nat.succ_pos rest.length)
      unfold stampBatchLoop
      simp [hcan, progressTrace]
    | k + 1 =>
      have h0 : cancelled idx = false := by simpa using hfirst 0 (Nat.succ_pos k)
      have hk2 : k ≤ rest.length := Nat.le_of_succ_le_succ hk
      have hfirst2 : ∀ j, j < k → cancelled (idx + 1 + j) = false := by
        intro j hj
        have hx := hfirst (j + 1) (by omega)
        rwa [show idx + (j + 1) = idx + 1 + j by omega] at hx
      have hc2 : k < rest.length → cancelled (idx + 1 + k) = true := by
        intro hlt
        have hx := hc (by simpa using Nat.succ_lt_succ hlt)
        rwa [show idx + (k + 1) = idx + 1 + k by omega] at hx
      have ihr := ih k (idx + 1) hk2 hfirst2 hc2
      unfold stampBatchLoop
      simp only [h0, Bool.false_eq_true, if_false, ihr, List.take_succ_cons,
        List.drop_succ_cons, List.map_cons]
      simp [progressTrace]

/-- C6: in a batch run with a request id, if the registry first reports
cancellation at the check before file `i`, then the results are exactly the
genuine per-file results for files before `i` followed by the fixed
`"취소됨"` cancellation marker for file `i` and every later file (so the
loop stopped and no completed result was altered, and no file whose
processing began before the cancellation check is marked cancelled), and
the emitted progress events are exactly those of the first `i` files —
none is emitted for a cancelled file. -/
theorem c6_cancellation_sticky (env : BatchEnv) (settings : StampSettingsInput)
    (rid : String) (cancelled : ℕ → Bool)
    (size_percent_by_path : Option (String → Option FloatVal))
    (paths : List String) (i : ℕ)
    (hi : i < paths.length) (hc : cancelled i = true)
    (hfirst : ∀ j, j < i → cancelled j = false) :
    (stampBatchWithProgress env paths settings (some rid) cancelled
        size_percent_by_path).1
      = (paths.take i).map
          (fun p => processInput env (settingsForInput settings size_percent_by_path p) p)
        ++ (paths.drop i).map
          (fun p => { input_path := p, ok := false, output_path := none,
                      error := some "취소됨" })
    ∧ (stampBatchWithProgress env paths settings (some rid) cancelled
        size_percent_by_path).2
      = progressTrace env settings size_percent_by_path paths.length (paths.take i) 0
    ∧ (stampBatchWithProgress env paths settings (some rid) cancelled
        size_percent_by_path).2.length = i := by
  have hchar := stampBatchLoop_cancel_char env settings rid cancelled
    size_percent_by_path paths.length paths i 0 (le_of_lt hi)
    (fun j hj => by simpa using hfirst j hj)
    (fun _ => by simpa using hc)
  unfold stampBatchWithProgress
  rw [hchar]
  refine ⟨rfl, rfl, ?_⟩
  rw [progressTrace_length]
  simp [min_eq_left (le_of_lt hi)]

/-- Witness for C6: two unsupported inputs, cancellation reported from the
second check onwards — the first file is processed (with a progress event),
the second is marked with the fixed cancellation marker and gets none. -/
theorem c6_witness :
    (1 < (["first.unsupported", "second.unsupported"] : List String).length
      ∧ (fun j => decide (1 ≤ j)) 1 = true
      ∧ (∀ j, j < 1 → (fun j => decide (1 ≤ j)) j = false))
    ∧ ((stampBatchWithProgress
          { openLogo := .ok (), stampImage := fun _ _ => .error "io",
            buildLogoStream := .ok (), stampPdf := fun _ _ => .error "io" }
          ["first.unsupported", "second.unsupported"]
          { position := "우하단", size_preset := "보통", size_percent := none,
            margin_percent := .fin 2 }
          (some "cancel-test-request") (fun j => decide (1 ≤ j)) none).1
        = (["first.unsupported", "second.unsupported"].take 1).map
            (fun p => processInput
              { openLogo := .ok (), stampImage := fun _ _ => .error "io",
                buildLogoStream := .ok (), stampPdf := fun _ _ => .error "io" }
              (settingsForInput
                { position := "우하단", size_preset := "보통", size_percent := none,
                  margin_percent := .fin 2 } none p) p)
          ++ (["first.unsupported", "second.unsupported"].drop 1).map
            (fun p => { input_path := p, ok := false, output_path := none,
                        error := some "취소됨" })
      ∧ (stampBatchWithProgress
          { openLogo := .ok (), stampImage := fun _ _ => .error "io",
            buildLogoStream := .ok (), stampPdf := fun _ _ => .error "io" }
          ["first.unsupported", "second.unsupported"]
          { position := "우하단", size_preset := "보통", size_percent := none,
            margin_percent := .fin 2 }
          (some "cancel-test-request") (fun j => decide (1 ≤ j)) none).2
        = progressTrace
            { openLogo := .ok (), stampImage := fun _ _ => .error "io",
              buildLogoStream := .ok (), stampPdf := fun _ _ => .error "io" }
            { position := "우하단", size_preset := "보통", size_percent := none,
              margin_percent := .fin 2 } none
            (["first.unsupported", "second.unsupported"] : List String).length
            (["first.unsupported", "second.unsupported"].take 1) 0
      ∧ (stampBatchWithProgress
          { openLogo := .ok (), stampImage := fun _ _ => .error "io",
            buildLogoStream := .ok (), stampPdf := fun _ _ => .error "io" }
          ["first.unsupported", "second.unsupported"]
          { position := "우하단", size_preset := "보통", size_percent := none,
            margin_percent := .fin 2 }
          (some "cancel-test-request") (fun j => decide (1 ≤ j)) none).2.length = 1) :=
  ⟨⟨by decide, by decide, by decide⟩,
   c6_cancellation_sticky _ _ "cancel-test-request" _ none _ 1
     (by decide) (by decide) (by decide)⟩

theorem stampPagesLoop_prefix_ok (env : PdfEnv) (doc : PdfDoc)
    (position : CornerPosition) (size_ratio margin_percent : ℚ) :
    ∀ (pre : List (ℕ × ObjectId)) (page : ℕ × ObjectId) (post : List (ℕ × ObjectId))
      (err : String),
      (∀ q ∈ pre, stampOnePage env doc position size_ratio margin_percent q = .ok ()) →
      stampOnePage env doc position size_ratio margin_percent page = .error err →
      stampPagesLoop env doc position size_ratio margin_percent (pre ++ page :: post)
        = (pre.map (fun q => .stamped q.1), some err) := by
  intro pre
  induction pre with
  | nil =>
    intro page post err hpre herr
    simp only [List.nil_append, List.map_nil]
    unfold stampPagesLoop
    rw [herr]
  | cons q rest ih =>
    intro page post err hpre herr
    have hq : stampOnePage env doc position size_ratio margin_percent q = .ok () :=
      hpre q (List.mem_cons_self q rest)
    have ihr := ih page post err (fun r hr => hpre r (List.mem_cons_of_mem q hr)) herr
    simp only [List.cons_append, List.map_cons]
    unfold stampPagesLoop
    rw [hq, ihr]

/-- C7: if, while stamping a PDF, the logo insertion fails on some page
(every earlier page having succeeded), then the whole file's stamping
returns the single file-level error naming that page's number, no event is
recorded for any later page, and the output document is never saved — the
save is only attempted after every page succeeded. -/
theorem c7_page_insert_failure_aborts (env : PdfEnv) (doc : PdfDoc)
    (input_path : String) (position : CornerPosition) (size_ratio margin_percent : ℚ)
    (pre post : List (ℕ × ObjectId)) (k : ℕ) (pid : ObjectId)
    (page_width page_height : ℚ) (rect : ℚ × ℚ × ℚ × ℚ) (e : String)
    (hext : isSupportedPdf input_path = true)
    (hload : env.loadDoc = .ok doc)
    (hpages : doc.pages = pre ++ (k, pid) :: post)
    (hpre : ∀ q ∈ pre, stampOnePage env doc position size_ratio margin_percent q = .ok ())
    (hres : resolvePageSize doc pid k = .ok (page_width, page_height))
    (hrect : computeLogoRect page_width page_height position size_ratio margin_percent
        env.logoDims = .ok rect)
    (himg : env.imageFrom = .ok ())
    (hins : env.insertImage pid rect = .error e) :
    stampSinglePdf env input_path position size_ratio margin_percent
      = (pre.map (fun q => .stamped q.1),
         .error ("페이지 " ++ toString k ++ "에 로고 삽입 실패: " ++ e))
    ∧ PdfEvent.saved ∉ (stampSinglePdf env input_path position size_ratio margin_percent).1 := by
  have hpage : stampOnePage env doc position size_ratio margin_percent (k, pid)
      = .error ("페이지 " ++ toString k ++ "에 로고 삽입 실패: " ++ e) := by
    unfold stampOnePage
    simp only [hres, hrect, himg, hins]
  have hloop := stampPagesLoop_prefix_ok env doc position size_ratio margin_percent
    pre (k, pid) post _ hpre hpage
  have hne : doc.pages.isEmpty = false := by
    rw [hpages]
    cases pre <;> simp
  have hmain : stampSinglePdf env input_path position size_ratio margin_percent
      = (pre.map (fun q => .stamped q.1),
         .error ("페이지 " ++ toString k ++ "에 로고 삽입 실패: " ++ e)) := by
    unfold stampSinglePdf
    rw [hext, hload]
    simp only [Bool.not_true, Bool.false_eq_true, if_false, hne]
    rw [hpages, hloop]
  refine ⟨hmain, ?_⟩
  rw [hmain]
  simp

/-- Witness for C7: a one-page document with a direct MediaBox whose logo
insertion fails with `"boom"`. -/
theorem c7_witness :
    (isSupportedPdf "input.pdf" = true
      ∧ resolvePageSize
          { objects := fun id => if id = ((1, 0) : ObjectId) then
              some (.dict [("MediaBox", .arr [.int 0, .int 0, .int 300, .int 300])])
            else none,
            pages := [(1, ((1, 0) : ObjectId))] } ((1, 0) : ObjectId) 1 = .ok (300, 300)
      ∧ computeLogoRect 300 300 .bottomRight 0.12 2 (.ok (8, 8))
          = .ok (258, 6, 36, 36))
    ∧ stampSinglePdf
        { loadDoc := .ok
            { objects := fun id => if id = ((1, 0) : ObjectId) then
                some (.dict [("MediaBox", .arr [.int 0, .int 0, .int 300, .int 300])])
              else none,
              pages := [(1, ((1, 0) : ObjectId))] },
          logoDims := .ok (8, 8), imageFrom := .ok (),
          insertImage := fun _ _ => .error "boom",
          outputPath := .ok "out.pdf", saveDoc := .ok () }
        "input.pdf" .bottomRight 0.12 2
      = ([], .error ("페이지 " ++ toString 1 ++ "에 로고 삽입 실패: " ++ "boom")) := by
  have h1 : isSupportedPdf "input.pdf" = true := by decide
  have h2 : resolvePageSize
      { objects := fun id => if id = ((1, 0) : ObjectId) then
          some (.dict [("MediaBox", .arr [.int 0, .int 0, .int 300, .int 300])])
        else none,
        pages := [(1, ((1, 0) : ObjectId))] } ((1, 0) : ObjectId) 1 = .ok (300, 300) := by
    simp [resolvePageSize, resolvePageSizeAux, getObjectDictionary, dictGet,
      parseMediaBox, mediaBoxArray, objectToF64]
    norm_num
  have h3 : computeLogoRect 300 300 .bottomRight 0.12 2 (.ok (8, 8))
      = .ok (258, 6, 36, 36) := by
    with_unfolding_all decide
  exact ⟨⟨h1, h2, h3⟩,
    (c7_page_insert_failure_aborts _ _ "input.pdf" .bottomRight 0.12 2 [] [] 1 (1, 0)
      300 300 (258, 6, 36, 36) "boom" h1 rfl rfl (by simp) h2 h3 rfl rfl).1⟩

theorem mediaBoxArray_ok_elim (doc : PdfDoc) (obj : PdfObject) (a : List PdfObject)
    (h : mediaBoxArray doc obj = .ok a) :
    obj = .arr a ∨ ∃ rid, obj = .ref rid ∧ doc.objects rid = some (.arr a) := by
  cases obj with
  | arr b =>
    simp [mediaBoxArray] at h
    exact Or.inl (by rw [h])
  | ref rid =>
    cases hd : doc.objects rid with
    | none => simp [mediaBoxArray, hd] at h
    | some o =>
      cases o with
      | arr b =>
        simp [mediaBoxArray, hd] at h
        exact Or.inr ⟨rid, rfl, by rw [hd, h]⟩
      | dict d => simp [mediaBoxArray, hd] at h
      | stream d => simp [mediaBoxArray, hd] at h
      | ref r2 => simp [mediaBoxArray, hd] at h
      | int z => simp [mediaBoxArray, hd] at h
      | real q => simp [mediaBoxArray, hd] at h
      | other => simp [mediaBoxArray, hd] at h
  | dict d => simp [mediaBoxArray] at h
  | stream d => simp [mediaBoxArray] at h
  | int z => simp [mediaBoxArray] at h
  | real q => simp [mediaBoxArray] at h
  | other => simp [mediaBoxArray] at h

theorem parseMediaBox_ok_elim (doc : PdfDoc) (obj : PdfObject) (w h : ℚ)
    (hp : parseMediaBox doc obj = .ok (w, h)) :
    ∃ a0 a1 a2 a3 llx lly urx ury,
      (obj = .arr [a0, a1, a2, a3]
        ∨ ∃ rid, obj = .ref rid ∧ doc.objects rid = some (.arr [a0, a1, a2, a3]))
      ∧ objectToF64 a0 = .ok llx ∧ objectToF64 a1 = .ok lly
      ∧ objectToF64 a2 = .ok urx ∧ objectToF64 a3 = .ok ury
      ∧ w = urx - llx ∧ h = ury - lly ∧ 0 < w ∧ 0 < h := by
  unfold parseMediaBox at hp
  cases ha : mediaBoxArray doc obj with
  | error e => rw [ha] at hp; simp at hp
  | ok arr =>
    rw [ha] at hp
    rcases arr with _ | ⟨a0, _ | ⟨a1, _ | ⟨a2, _ | ⟨a3, _ | ⟨a4, rest⟩⟩⟩⟩⟩
    · simp at hp
    · simp at hp
    · simp at hp
    · simp at hp
    · cases h0 : objectToF64 a0 with
      | error e => simp [h0] at hp
      | ok llx =>
        cases h1 : objectToF64 a1 with
        | error e => simp [h0, h1] at hp
        | ok lly =>
          cases h2 : objectToF64 a2 with
          | error e => simp [h0, h1, h2] at hp
          | ok urx =>
            cases h3 : objectToF64 a3 with
            | error e => simp [h0, h1, h2, h3] at hp
            | ok ury =>
              simp only [h0, h1, h2, h3] at hp
              split at hp
              · simp at hp
              · rename_i hcond
                push_neg at hcond
                simp at hp
                obtain ⟨hw, hh⟩ := hp
                refine ⟨a0, a1, a2, a3, llx, lly, urx, ury,
                  mediaBoxArray_ok_elim doc obj _ ha, h0, h1, h2, h3,
                  hw.symm, hh.symm, ?_, ?_⟩
                · rw [← hw]; linarith [hcond.1]
                · rw [← hh]; linarith [hcond.2]
    · simp at hp

theorem resolvePageSizeVisits_le (doc : PdfDoc) :
    ∀ (fuel : ℕ) (id : ObjectId), resolvePageSizeVisits doc fuel id ≤ fuel := by
  intro fuel
  induction fuel with
  | zero => intro id; simp [resolvePageSizeVisits]
  | succ fuel ih =>
    intro id
    unfold resolvePageSizeVisits
    repeat' split
    all_goals first
      | omega
      | simpa [Nat.add_comm] using Nat.succ_le_succ (ih _)

theorem resolvePageSizeAux_ok_mediaBox (doc : PdfDoc) (n : ℕ) :
    ∀ (fuel : ℕ) (id : ObjectId) (w h : ℚ),
      resolvePageSizeAux doc n fuel id = .ok (w, h) →
      ∃ mb, mediaBoxWithin doc fuel id = some mb ∧ parseMediaBox doc mb = .ok (w, h) := by
  intro fuel
  induction fuel with
  | zero => intro id w h hr; simp [resolvePageSizeAux] at hr
  | succ fuel ih =>
    intro id w h hr
    unfold resolvePageSizeAux at hr
    unfold mediaBoxWithin
    cases hd : getObjectDictionary doc id with
    | error e => simp [hd] at hr
    | ok dict =>
      simp only [hd] at hr ⊢
      cases hmb : dictGet dict "MediaBox" with
      | some mb =>
        simp only [hmb] at hr ⊢
        cases hpm : parseMediaBox doc mb with
        | error e => simp [hpm] at hr
        | ok wh =>
          simp only [hpm] at hr
          simp at hr
          exact ⟨mb, rfl, by rw [hpm, hr]⟩
      | none =>
        simp only [hmb] at hr ⊢
        cases hpar : dictGet dict "Parent" with
        | none => simp [hpar] at hr
        | some o =>
          simp only [hpar] at hr ⊢
          clear hpar
          cases o with
          | ref pid => exact ih _ w h hr
          | dict d => simp at hr
          | stream d => simp at hr
          | arr b => simp at hr
          | int z => simp at hr
          | real q => simp at hr
          | other => simp at hr

/-- C8: page-size resolution fetches at most 32 dictionaries along the
`Parent` chain; a successful resolution means a MediaBox entry was found
within that bound and parsed as a 4-element numeric array (direct or via one
indirect reference) with `width = urx - llx > 0` and `height = ury - lly > 0`;
and on a cyclic parent chain with no MediaBox the walk terminates with the
hard "MediaBox not found" error instead of looping. -/
theorem c8_page_size_resolution_bounded :
    (∀ (doc : PdfDoc) (id : ObjectId), resolvePageSizeVisits doc 32 id ≤ 32)
    ∧ (∀ (doc : PdfDoc) (n : ℕ) (id : ObjectId) (w h : ℚ),
        resolvePageSize doc id n = .ok (w, h) →
        ∃ mb, mediaBoxWithin doc 32 id = some mb ∧ parseMediaBox doc mb = .ok (w, h))
    ∧ (∀ (doc : PdfDoc) (obj : PdfObject) (w h : ℚ),
        parseMediaBox doc obj = .ok (w, h) →
        ∃ a0 a1 a2 a3 llx lly urx ury,
          (obj = .arr [a0, a1, a2, a3]
            ∨ ∃ rid, obj = .ref rid ∧ doc.objects rid = some (.arr [a0, a1, a2, a3]))
          ∧ objectToF64 a0 = .ok llx ∧ objectToF64 a1 = .ok lly
          ∧ objectToF64 a2 = .ok urx ∧ objectToF64 a3 = .ok ury
          ∧ w = urx - llx ∧ h = ury - lly ∧ 0 < w ∧ 0 < h)
    ∧ resolvePageSize
        { objects := fun id => if id = ((1, 0) : ObjectId) then
            some (.dict [("Parent", .ref (1, 0))])
          else none,
          pages := [(1, ((1, 0) : ObjectId))] } ((1, 0) : ObjectId) 1
      = .error ("페이지 " ++ toString 1 ++ "의 MediaBox를 찾지 못했습니다.") := by
  refine ⟨fun doc id => resolvePageSizeVisits_le doc 32 id,
    fun doc n id w h hr => resolvePageSizeAux_ok_mediaBox doc n 32 id w h hr,
    fun doc obj w h hp => parseMediaBox_ok_elim doc obj w h hp, ?_⟩
  decide

/-- Witness for C8's conditional parts: a page whose dictionary lacks a
MediaBox but whose `Parent` chain reaches one (a direct 4-integer array),
resolved to `300 × 300`. -/
theorem c8_witness :
    (resolvePageSize
        { objects := fun id =>
            if id = ((1, 0) : ObjectId) then some (.dict [("Parent", .ref (2, 0))])
            else if id = ((2, 0) : ObjectId) then
              some (.dict [("MediaBox", .arr [.int 0, .int 0, .int 300, .int 300])])
            else none,
          pages := [(1, ((1, 0) : ObjectId))] } ((1, 0) : ObjectId) 1 = .ok (300, 300))
    ∧ (∃ mb, mediaBoxWithin
        { objects := fun id =>
            if id = ((1, 0) : ObjectId) then some (.dict [("Parent", .ref (2, 0))])
            else if id = ((2, 0) : ObjectId) then
              some (.dict [("MediaBox", .arr [.int 0, .int 0, .int 300, .int 300])])
            else none,
          pages := [(1, ((1, 0) : ObjectId))] } 32 ((1, 0) : ObjectId) = some mb
        ∧ parseMediaBox
            { objects := fun id =>
                if id = ((1, 0) : ObjectId) then some (.dict [("Parent", .ref (2, 0))])
                else if id = ((2, 0) : ObjectId) then
                  some (.dict [("MediaBox", .arr [.int 0, .int 0, .int 300, .int 300])])
                else none,
              pages := [(1, ((1, 0) : ObjectId))] } mb = .ok (300, 300)) := by
  have hres : resolvePageSize
      { objects := fun id =>
          if id = ((1, 0) : ObjectId) then some (.dict [("Parent", .ref (2, 0))])
          else if id = ((2, 0) : ObjectId) then
            some (.dict [("MediaBox", .arr [.int 0, .int 0, .int 300, .int 300])])
          else none,
        pages := [(1, ((1, 0) : ObjectId))] } ((1, 0) : ObjectId) 1 = .ok (300, 300) := by
    with_unfolding_all decide
  exact ⟨hres, c8_page_size_resolution_bounded.2.1 _ 1 _ 300 300 hres⟩

theorem outputCandidate_pos (base ext : String) (i : ℕ) (hi : i ≠ 0) :
    outputCandidate base ext i = loopCandidate base ext i := by
  unfold outputCandidate
  rw [if_neg hi]

theorem probeLoop_finds_first (existing : String → Bool) (base ext : String) :
    ∀ (fuel i j : ℕ),
      1 ≤ i → i ≤ j → j ≤ 2 ^ 32 - 1 → j < i + fuel →
      (∀ m, i ≤ m → m < j → existing (loopCandidate base ext m) = true) →
      existing (loopCandidate base ext j) = false →
      probeLoop existing base ext fuel i = some (loopCandidate base ext j) := by
  intro fuel
  induction fuel with
  | zero => intro i j h1 hij hj hfuel hall hfree; omega
  | succ fuel ih =>
    intro i j h1 hij hj hfuel hall hfree
    unfold probeLoop
    by_cases hcase : i = j
    · subst hcase
      rw [hfree]
      simp
    · have hilt : i < j := lt_of_le_of_ne hij hcase
      have hex : existing (loopCandidate base ext i) = true :=
        hall i (le_refl i) hilt
      rw [hex]
      simp only [if_true]
      rw [min_eq_left (by omega)]
      exact ih (i + 1) j (by omega) (by omega) hj (by omega)
        (fun m hm1 hm2 => hall m (by omega) hm2) hfree

theorem probeLoop_all_taken_none (existing : String → Bool) (base ext : String)
    (hall : ∀ j, 1 ≤ j → j ≤ 2 ^ 32 - 1 → existing (loopCandidate base ext j) = true) :
    ∀ (fuel i : ℕ), 1 ≤ i → i ≤ 2 ^ 32 - 1 →
      probeLoop existing base ext fuel i = none := by
  intro fuel
  induction fuel with
  | zero => intro i h1 h2; rfl
  | succ fuel ih =>
    intro i h1 h2
    unfold probeLoop
    rw [hall i h1 h2]
    simp only [if_true]
    exact ih _ (by omega) (by omega)

theorem outputCandidate_zero (base ext : String) :
    outputCandidate base ext 0 = base ++ "." ++ ext := by
  unfold outputCandidate
  rw [if_pos rfl]

theorem outputCandidate_zero_pdf (base : String) :
    outputCandidate base "pdf" 0 = base ++ ".pdf" := by
  rw [outputCandidate_zero, String.append_assoc]
  rfl

/-- C4 (amended): whenever some candidate in the allocator's probe sequence
(`"<stem>_cornerbrand.<ext>"`, then `"(1)"`, `"(2)"`, … up to index
`2^32 - 1`, the saturation point of the `u32` counter) does not yet exist,
both the image and the PDF allocator return the *first* such free name —
in particular they never return an existing name and never overwrite.  (The
unamended "for every state of existing files" claim fails only in the
degenerate state where all `2^32` probe names exist, where the Rust loop
never terminates; see the counterexample.) -/
theorem c4_first_free_name (existing : String → Bool) :
    (∀ (input ext : String) (j : ℕ),
        detectSupportedImage input = some ext →
        j ≤ 2 ^ 32 - 1 →
        existing (outputCandidate (imageOutputBase input) ext j) = false →
        (∀ m, m < j → existing (outputCandidate (imageOutputBase input) ext m) = true) →
        buildOutputPath existing input
          = .ok (some (outputCandidate (imageOutputBase input) ext j)))
    ∧ (∀ (input : String) (j : ℕ),
        isSupportedPdf input = true →
        j ≤ 2 ^ 32 - 1 →
        existing (outputCandidate (pdfOutputBase input) "pdf" j) = false →
        (∀ m, m < j → existing (outputCandidate (pdfOutputBase input) "pdf" m) = true) →
        buildOutputPdfPath existing input
          = .ok (some (outputCandidate (pdfOutputBase input) "pdf" j))) := by
  constructor
  · intro input ext j hdet hj hfree hbelow
    unfold buildOutputPath
    rw [hdet]
    dsimp only
    match j with
    | 0 =>
      rw [outputCandidate_zero] at hfree
      rw [hfree]
      simp only [Bool.false_eq_true, if_false]
      rw [outputCandidate_zero]
    | k + 1 =>
      have h0 : existing (imageOutputBase input ++ "." ++ ext) = true := by
        have := hbelow 0 (by omega)
        rwa [outputCandidate_zero] at this
      rw [h0]
      simp only [if_true]
      rw [outputCandidate_pos _ _ _ (by omega)]
      rw [probeLoop_finds_first existing (imageOutputBase input) ext (2 ^ 32 - 1) 1 (k + 1)
        (by omega) (by omega) hj (by omega)
        (fun m hm1 hm2 => by
          have := hbelow m hm2
          rwa [outputCandidate_pos _ _ _ (by omega)] at this)
        (by rwa [outputCandidate_pos _ _ _ (by omega)] at hfree)]
  · intro input j hpdf hj hfree hbelow
    unfold buildOutputPdfPath
    rw [hpdf]
    simp only [Bool.not_true, Bool.false_eq_true, if_false]
    match j with
    | 0 =>
      rw [outputCandidate_zero_pdf] at hfree
      rw [hfree]
      simp only [Bool.false_eq_true, if_false]
      rw [outputCandidate_zero_pdf]
    | k + 1 =>
      have h0 : existing (pdfOutputBase input ++ ".pdf") = true := by
        have := hbelow 0 (by omega)
        rwa [outputCandidate_zero_pdf] at this
      rw [h0]
      simp only [if_true]
      rw [outputCandidate_pos _ _ _ (by omega)]
      rw [probeLoop_finds_first existing (pdfOutputBase input) "pdf" (2 ^ 32 - 1) 1 (k + 1)
        (by omega) (by omega) hj (by omega)
        (fun m hm1 hm2 => by
          have := hbelow m hm2
          rwa [outputCandidate_pos _ _ _ (by omega)] at this)
        (by rwa [outputCandidate_pos _ _ _ (by omega)] at hfree)]

/-- Counterexample to C4 as stated ("for **every** state of existing files…
never fails due to a collision"): in the (finite!) directory state where all
`2^32` probe names for `x.png` already exist, the saturating `u32` counter
re-probes `"x_cornerbrand(4294967295).png"` forever — the Rust loop never
returns a name (modelled by the fuel-exhausted `none`). -/
theorem c4_counterexample :
    buildOutputPath
      (fun s => (List.range (2 ^ 32)).any
        (fun i => s == outputCandidate "x_cornerbrand" "png" i))
      "x.png" = .ok none := by
  have hdet : detectSupportedImage "x.png" = some "png" := by decide
  have hbase : imageOutputBase "x.png" = "x_cornerbrand" := by decide
  unfold buildOutputPath
  rw [hdet]
  dsimp only
  rw [hbase]
  have hex0 : (List.range (2 ^ 32)).any
      (fun i => ("x_cornerbrand" ++ "." ++ "png")
        == outputCandidate "x_cornerbrand" "png" i) = true := by
    refine List.any_eq_true.mpr ⟨0, List.mem_range.mpr (by norm_num), ?_⟩
    rw [outputCandidate_zero]
    exact beq_self_eq_true _
  rw [hex0]
  simp only [if_true]
  rw [probeLoop_all_taken_none _ "x_cornerbrand" "png"
    (fun j hj1 hj2 => by
      refine List.any_eq_true.mpr ⟨j, List.mem_range.mpr (by omega), ?_⟩
      rw [outputCandidate_pos _ _ _ (by omega)]
      exact beq_self_eq_true _)
    (2 ^ 32 - 1) 1 (by omega) (by norm_num)]

/-- Witness for C4's amended theorem: with only `"a_cornerbrand.png"`
(resp. `"b_cornerbrand.pdf"`) existing, both allocators pick the `"(1)"`
candidate, the first free name. -/
theorem c4_witness :
    (detectSupportedImage "a.png" = some "png"
      ∧ (fun s => s == "a_cornerbrand.png")
          (outputCandidate (imageOutputBase "a.png") "png" 1) = false
      ∧ (∀ m, m < 1 → (fun s => s == "a_cornerbrand.png")
          (outputCandidate (imageOutputBase "a.png") "png" m) = true)
      ∧ buildOutputPath (fun s => s == "a_cornerbrand.png") "a.png"
          = .ok (some (outputCandidate (imageOutputBase "a.png") "png" 1)))
    ∧ (isSupportedPdf "b.pdf" = true
      ∧ (fun s => s == "b_cornerbrand.pdf")
          (outputCandidate (pdfOutputBase "b.pdf") "pdf" 1) = false
      ∧ (∀ m, m < 1 → (fun s => s == "b_cornerbrand.pdf")
          (outputCandidate (pdfOutputBase "b.pdf") "pdf" m) = true)
      ∧ buildOutputPdfPath (fun s => s == "b_cornerbrand.pdf") "b.pdf"
          = .ok (some (outputCandidate (pdfOutputBase "b.pdf") "pdf" 1))) :=
  ⟨⟨by decide, by decide, by decide,
    (c4_first_free_name _).1 "a.png" "png" 1 (by decide) (by decide)
      (by decide) (by decide)⟩,
   ⟨by decide, by decide, by decide,
    (c4_first_free_name _).2 "b.pdf" 1 (by decide) (by decide)
      (by decide) (by decide)⟩⟩

theorem pdfSettingsTryFrom_size_ratio_le_half (value : StampSettingsInput)
    (s : StampSettings) (h : pdfSettingsTryFrom value = .ok s) :
    s.size_ratio ≤ 1 / 2 := by
  obtain ⟨-, -, hr⟩ := pdfSettingsTryFrom_ok_elim value s h
  rcases hr with ⟨q, -, hq⟩ | hr
  · rw [hq]
    have := min_le_right (max q 1) 50
    linarith
  · have := (presetRatio_bounds _ _ hr).2
    linarith

theorem pdfSettingsTryFrom_margin_fin_bounds (value : StampSettingsInput)
    (s : StampSettings) (m : ℚ) (h : pdfSettingsTryFrom value = .ok s)
    (hm : s.margin_percent = .fin m) : 0 ≤ m ∧ m ≤ 20 := by
  obtain ⟨-, hmargin, -⟩ := pdfSettingsTryFrom_ok_elim value s h
  rw [hmargin] at hm
  cases hv : value.margin_percent with
  | fin q =>
    rw [hv] at hm
    simp [FloatVal.clamp] at hm
    rw [← hm]
    exact ⟨le_min (le_max_right q 0) (by norm_num), min_le_right _ _⟩
  | nan =>
    rw [hv] at hm
    simp [FloatVal.clamp] at hm
  | inf =>
    rw [hv] at hm
    simp [FloatVal.clamp] at hm
    rw [← hm]
    norm_num
  | ninf =>
    rw [hv] at hm
    simp [FloatVal.clamp] at hm
    rw [← hm]
    norm_num

theorem computeLogoRect_in_bounds (page_width page_height : ℚ)
    (position : CornerPosition) (size_ratio margin_percent : ℚ)
    (logo_w logo_h : ℕ) (x y dw dh : ℚ)
    (hpw : 1 ≤ page_width) (hph : 1 ≤ page_height)
    (hratio : size_ratio ≤ 1) (hm : 0 ≤ margin_percent)
    (hres : computeLogoRect page_width page_height position size_ratio margin_percent
        (.ok (logo_w, logo_h)) = .ok (x, y, dw, dh)) :
    0 ≤ x ∧ 0 ≤ y ∧ x + dw ≤ page_width ∧ y + dh ≤ page_height := by
  unfold computeLogoRect at hres
  rw [if_neg (by push_neg; constructor <;> linarith)] at hres
  dsimp only at hres
  by_cases hz : logo_w = 0 ∨ logo_h = 0
  · rw [if_pos hz] at hres
    exact absurd hres (by simp)
  rw [if_neg hz] at hres
  push_neg at hz
  push_cast at hres
  set SS := min page_width page_height with hSS
  set MG := SS * margin_percent / 100 with hMG
  set TM := max (SS * size_ratio) 1 with hTM
  set LM := max (logo_w : ℚ) (logo_h : ℚ) with hLM
  set SC := TM / LM with hSC
  set DW := max ((logo_w : ℚ) * SC) 1 with hDW
  set DH := max ((logo_h : ℚ) * SC) 1 with hDH
  set MX := max (page_width - DW) 0 with hMX
  set MY := max (page_height - DH) 0 with hMY
  have hss1 : (1 : ℚ) ≤ SS := le_min hpw hph
  have hlm1 : (1 : ℚ) ≤ LM := by
    have hn : (1 : ℚ) ≤ (logo_w : ℚ) := by
      have := hz.1
      exact_mod_cast Nat.one_le_iff_ne_zero.mpr this
    exact le_trans hn (le_max_left _ _)
  have htm1 : (1 : ℚ) ≤ TM := le_max_right _ _
  have hsc0 : 0 ≤ SC := div_nonneg (by linarith) (by linarith)
  have htm_le : TM ≤ SS := max_le (mul_le_of_le_one_right (by linarith) hratio) hss1
  have hwLM : (logo_w : ℚ) ≤ LM := le_max_left _ _
  have hhLM : (logo_h : ℚ) ≤ LM := le_max_right _ _
  have hLMSC : LM * SC = TM := by
    rw [hSC, mul_comm, div_mul_cancel₀]
    linarith
  have hdw_le : DW ≤ SS := by
    apply max_le _ hss1
    calc (logo_w : ℚ) * SC ≤ LM * SC := mul_le_mul_of_nonneg_right hwLM hsc0
      _ = TM := hLMSC
      _ ≤ SS := htm_le
  have hdh_le : DH ≤ SS := by
    apply max_le _ hss1
    calc (logo_h : ℚ) * SC ≤ LM * SC := mul_le_mul_of_nonneg_right hhLM hsc0
      _ = TM := hLMSC
      _ ≤ SS := htm_le
  have hmg0 : 0 ≤ MG := div_nonneg (mul_nonneg (by linarith) hm) (by norm_num)
  have hminw : SS ≤ page_width := min_le_left _ _
  have hminh : SS ≤ page_height := min_le_right _ _
  have hMXv : MX = page_width - DW := max_eq_left (by linarith)
  have hMYv : MY = page_height - DH := max_eq_left (by linarith)
  have hleft0 : 0 ≤ min MG MX := le_min hmg0 (le_max_right _ _)
  have hright0 : 0 ≤ min (max (page_width - DW - MG) 0) MX :=
    le_min (le_max_right _ _) (le_max_right _ _)
  have hbottom0 : 0 ≤ min MG MY := le_min hmg0 (le_max_right _ _)
  have htop0 : 0 ≤ min (max (page_height - DH - MG) 0) MY :=
    le_min (le_max_right _ _) (le_max_right _ _)
  have hleftB : min MG MX + DW ≤ page_width := by
    have h := min_le_right MG MX
    linarith
  have hrightB : min (max (page_width - DW - MG) 0) MX + DW ≤ page_width := by
    have h := min_le_right (max (page_width - DW - MG) 0) MX
    linarith
  have hbottomB : min MG MY + DH ≤ page_height := by
    have h := min_le_right MG MY
    linarith
  have htopB : min (max (page_height - DH - MG) 0) MY + DH ≤ page_height := by
    have h := min_le_right (max (page_height - DH - MG) 0) MY
    linarith
  cases position <;>
    simp only [Except.ok.injEq, Prod.mk.injEq] at hres <;>
    obtain ⟨hx, hy, hdwv, hdhv⟩ := hres <;>
    rw [← hx, ← hy, ← hdwv, ← hdhv]
  · exact ⟨hleft0, htop0, hleftB, htopB⟩
  · exact ⟨hright0, htop0, hrightB, htopB⟩
  · exact ⟨hleft0, hbottom0, hleftB, hbottomB⟩
  · exact ⟨hright0, hbottom0, hrightB, hbottomB⟩

theorem stampSingleImageRect_clamped (width height logoW logoH : ℕ)
    (position : CornerPosition) (size_ratio margin_percent : ℚ) :
    ((stampSingleImageRect width height logoW logoH position size_ratio
        margin_percent).2.2.1 ≤ width →
      (stampSingleImageRect width height logoW logoH position size_ratio
        margin_percent).1
        + (stampSingleImageRect width height logoW logoH position size_ratio
            margin_percent).2.2.1 ≤ width)
    ∧ ((stampSingleImageRect width height logoW logoH position size_ratio
        margin_percent).2.2.2 ≤ height →
      (stampSingleImageRect width height logoW logoH position size_ratio
        margin_percent).2.1
        + (stampSingleImageRect width height logoW logoH position size_ratio
            margin_percent).2.2.2 ≤ height) := by
  unfold stampSingleImageRect
  cases position <;> dsimp only <;> constructor <;> intro hle <;> omega

/-- C1 (amended): the placement never has a negative corner, and the
clamping keeps the whole logo on-canvas *whenever the computed draw size
fits the canvas*.  Image path: `x`, `y` are ℕ (so `0 ≤ x, y` holds by type),
and if the computed `target_width`/`target_height` is at most the canvas
width/height then `x + draw_w ≤ canvas_w` and `y + draw_h ≤ canvas_h`; with
`size_ratio > 1` (reachable, image-side, via explicit sizes above 100%) the
draw size itself can exceed the canvas and the rectangle overflows even
though `x = y = 0` (see the counterexample).  PDF path: for *every* settings
value the PDF resolver can produce (its `size_ratio` never exceeds `1/2`)
and every page of size at least `1 × 1`, all four bounds hold
unconditionally. -/
theorem c1_placement_within_canvas :
    (∀ (width height logoW logoH : ℕ) (position : CornerPosition)
        (size_ratio margin_percent : ℚ),
      ((stampSingleImageRect width height logoW logoH position size_ratio
          margin_percent).2.2.1 ≤ width →
        (stampSingleImageRect width height logoW logoH position size_ratio
          margin_percent).1
          + (stampSingleImageRect width height logoW logoH position size_ratio
              margin_percent).2.2.1 ≤ width)
      ∧ ((stampSingleImageRect width height logoW logoH position size_ratio
          margin_percent).2.2.2 ≤ height →
        (stampSingleImageRect width height logoW logoH position size_ratio
          margin_percent).2.1
          + (stampSingleImageRect width height logoW logoH position size_ratio
              margin_percent).2.2.2 ≤ height))
    ∧ (∀ (value : StampSettingsInput) (s : StampSettings) (m : ℚ)
        (page_width page_height : ℚ) (logo_w logo_h : ℕ) (x y dw dh : ℚ),
      pdfSettingsTryFrom value = .ok s →
      s.margin_percent = .fin m →
      1 ≤ page_width → 1 ≤ page_height →
      computeLogoRect page_width page_height s.position s.size_ratio m
          (.ok (logo_w, logo_h)) = .ok (x, y, dw, dh) →
      0 ≤ x ∧ 0 ≤ y ∧ x + dw ≤ page_width ∧ y + dh ≤ page_height) := by
  constructor
  · intro width height logoW logoH position size_ratio margin_percent
    exact stampSingleImageRect_clamped width height logoW logoH position
      size_ratio margin_percent
  · intro value s m page_width page_height logo_w logo_h x y dw dh
      hok hfin hpw hph hres
    have hr2 : s.size_ratio ≤ 1 / 2 := pdfSettingsTryFrom_size_ratio_le_half value s hok
    have hmb := pdfSettingsTryFrom_margin_fin_bounds value s m hok hfin
    exact computeLogoRect_in_bounds page_width page_height s.position
      s.size_ratio m logo_w logo_h x y dw dh hpw hph (by linarith) hmb.1 hres

/-- Counterexample to C1 as stated: with the image resolver's own output for
an explicit `300%` (`size_ratio = 3.0`), a `10 × 10` canvas and a `10 × 10`
logo yield a `30 × 30` draw rectangle at `(0, 0)` — `x + draw_w = 30 > 10`
exceeds the canvas. -/
theorem c1_counterexample :
    imageSettingsTryFrom
      { position := "좌상단", size_preset := "보통", size_percent := some (.fin 300),
        margin_percent := .fin 0 }
      = .ok { position := .topLeft, size_ratio := 3, margin_percent := .fin 0 }
    ∧ stampSingleImageRect 10 10 10 10 .topLeft 3 0 = (0, 0, 30, 30)
    ∧ ¬ ((0 : ℕ) + 30 ≤ 10) := by
  refine ⟨?_, ?_, by decide⟩
  · simp [imageSettingsTryFrom, parsePosition, presetRatio, FloatVal.clamp]
    norm_num
  · with_unfolding_all decide

/-- Witness for C1: the image conjunct at a `100 × 100` canvas with a
`10 × 10` logo, medium-preset ratio and margin 2 (draw size `12 ≤ 100`),
and the PDF conjunct at the repository test's `300 × 300` page with an
`8 × 8` logo. -/
theorem c1_witness :
    ((stampSingleImageRect 100 100 10 10 .bottomRight 0.12 2).2.2.1 ≤ 100
      ∧ (stampSingleImageRect 100 100 10 10 .bottomRight 0.12 2).1
          + (stampSingleImageRect 100 100 10 10 .bottomRight 0.12 2).2.2.1 ≤ 100)
    ∧ (pdfSettingsTryFrom
        { position := "우하단", size_preset := "보통", size_percent := none,
          margin_percent := .fin 2 }
        = .ok { position := .bottomRight, size_ratio := 0.12, margin_percent := .fin 2 }
      ∧ computeLogoRect 300 300 .bottomRight 0.12 2 (.ok (8, 8))
          = .ok (258, 6, 36, 36)
      ∧ (0 ≤ (258 : ℚ) ∧ 0 ≤ (6 : ℚ) ∧ (258 : ℚ) + 36 ≤ 300 ∧ (6 : ℚ) + 36 ≤ 300)) := by
  have htw : (stampSingleImageRect 100 100 10 10 .bottomRight 0.12 2).2.2.1 ≤ 100 := by
    with_unfolding_all decide
  have hok : pdfSettingsTryFrom
      { position := "우하단", size_preset := "보통", size_percent := none,
        margin_percent := .fin 2 }
      = .ok { position := .bottomRight, size_ratio := 0.12, margin_percent := .fin 2 } := by
    simp [pdfSettingsTryFrom, parsePosition, presetRatio, FloatVal.clamp]
    norm_num
  have hrect : computeLogoRect 300 300 .bottomRight 0.12 2 (.ok (8, 8))
      = .ok (258, 6, 36, 36) := by
    with_unfolding_all decide
  exact ⟨⟨htw, (c1_placement_within_canvas.1 100 100 10 10 .bottomRight 0.12 2).1 htw⟩,
    hok, hrect,
    c1_placement_within_canvas.2 _ _ 2 300 300 8 8 258 6 36 36 hok rfl
      (by norm_num) (by norm_num) hrect⟩
